import Mathlib

/-!
Shallow embedding of the project-management handlers
(`src/handlers/handlers.py` and the `ProjectRestructurer` class of
`src/test-restructure.py`).

Modelling conventions:
* A project directory is captured by its top-level snapshot (`Tree`): the
  names of the entries `Path.iterdir()` yields, split into directories and
  files, plus the one-level-deeper entries needed for the restructurer's
  destination-collision check.  This matches the code, which classifies
  and scores using a single top-level listing.
* Python floats are replaced by exact rationals `ℚ`.  Every ratio the code
  compares has denominator at most 6 and differs from the `0.3` threshold
  and from any other compared ratio by at least `1/30`, far above IEEE
  double rounding error, so the exact comparison is faithful.  Likewise,
  with the default weights `40/35/15/10` and the default schemas (required
  list lengths 4, 5 and 6) the float score sum is never within `1/20` of
  crossing an integer boundary except when it is exactly representable, so
  `int()` of the float agrees with truncation of the exact rational.
* Python `int()` truncates toward zero; it is embedded as `pyInt`.
* The only exception the scoring path can raise, `ZeroDivisionError`, and
  the path-missing `ValidationError`/`RestructureError` are made explicit
  in `PyError`; the public handlers catch every error and build the
  failure envelope exactly as the `except` blocks do.
-/

namespace ProjectManagement

/-- Top-level snapshot of a project directory: names of directories and
files directly inside the project root (what `iterdir()` yields), plus
`subEntries`, the (top-level directory, entry name) pairs one level deeper,
used only for the restructurer's `target_path.exists()` check. -/
structure Tree where
  dirs : List String
  files : List String
  subEntries : List (String × String) := []
deriving DecidableEq, Repr

/-- One project-type schema from the configuration registry. -/
structure Schema where
  required_dirs : List String
  optional_dirs : List String
  required_files : List String
deriving DecidableEq, Repr

/-- Scoring weights from the `validation.scoring_weights` configuration. -/
structure ScoringWeights where
  directories : ℚ
  required_files : ℚ
  content_quality : ℚ
  git_integration : ℚ
deriving DecidableEq, Repr

/-- Default weights 40/35/15/10 from `get_project_config`. -/
def defaultWeights : ScoringWeights := ⟨40, 35, 15, 10⟩

/-- Default `research-project` schema from `get_project_config`. -/
def researchProject : Schema :=
  { required_dirs := ["claude-code", "data/raw", "data/processed", "codes/scripts",
      "paper/sections", "pre/literature"]
    optional_dirs := ["data/external", "codes/notebooks", "paper/figures", "pre/proposals"]
    required_files := ["README.md", ".gitignore", "project.yml", ".project-config.json"] }

/-- Default `data-analysis` schema from `get_project_config`. -/
def dataAnalysis : Schema :=
  { required_dirs := ["claude-code", "data/raw", "data/processed", "codes/etl",
      "codes/analysis", "reports/drafts"]
    optional_dirs := ["data/exports", "codes/models", "codes/visualization",
      "reports/presentations"]
    required_files := ["README.md", ".gitignore", "project.yml", ".project-config.json"] }

/-- Default `paper-writing` schema from `get_project_config`. -/
def paperWriting : Schema :=
  { required_dirs := ["claude-code", "data/figures", "data/tables", "codes/analysis",
      "paper/chapters", "pre/outlines"]
    optional_dirs := ["data/supplementary", "paper/sections", "pre/drafts", "pre/reviews"]
    required_files := ["README.md", ".gitignore", "project.yml", ".project-config.json"] }

/-- Default `general` schema from `get_project_config`. -/
def general : Schema :=
  { required_dirs := ["claude-code", "data", "codes", "paper", "pre"]
    optional_dirs := []
    required_files := ["README.md", ".gitignore", "project.yml", ".project-config.json"] }

/-- The default registry `config[project_types]`, in Python dict insertion
order (the order `_detect_project_type` iterates). -/
def projectTypes : List (String × Schema) :=
  [("research-project", researchProject), ("data-analysis", dataAnalysis),
   ("paper-writing", paperWriting), ("general", general)]

/-- Number of required directory names present in the top-level listing:
`sum(1 for dir_name in required_dirs if dir_name in existing_dirs)`. -/
def matchCount (t : Tree) (req : List String) : ℕ :=
  (req.filter (fun d => decide (d ∈ t.dirs))).length

/-- Match ratio `matches / len(required_dirs)` of one schema against a
tree.  Every schema in the default registry has nonempty `required_dirs`,
so the Python division never raises here. -/
def matchRatio (t : Tree) (s : Schema) : ℚ :=
  (matchCount t s.required_dirs : ℚ) / (s.required_dirs.length : ℚ)

/-- The detection loop of `_detect_project_type`: fold over the registry
keeping `(best_match, best_score)`, updating only on a strictly greater
score. -/
def detectLoop (t : Tree) : List (String × Schema) → Option String → ℚ → Option String × ℚ
  | [], best, bestScore => (best, bestScore)
  | p :: rest, best, bestScore =>
    if bestScore < matchRatio t p.2 then
      detectLoop t rest (some p.1) (matchRatio t p.2)
    else
      detectLoop t rest best bestScore

/-- `_detect_project_type`: return `best_match` if `best_score > 0.3` else
`None`. -/
def detectProjectType (t : Tree) : Option String :=
  let r := detectLoop t projectTypes none 0
  if 3 / 10 < r.2 then r.1 else none

/-- Caller-side fallback `if not project_type: project_type = "general"`
used by `validate_project`, `get_project_status` and
`restructure_project`. -/
def detectedType (t : Tree) : String :=
  (detectProjectType t).getD "general"

/-- Schema lookup `config[project_types][project_type]` for the detected
type.  The lookup never falls through to the default (`detectedType`
always yields a registry key, see `lookup_detectedType`). -/
def detectedSchema (t : Tree) : Schema :=
  (projectTypes.lookup (detectedType t)).getD general

/-- Required directories absent from the top-level listing:
`[d for d in required_dirs if d not in existing_dirs]`. -/
def missingDirs (s : Schema) (t : Tree) : List String :=
  s.required_dirs.filter (fun d => decide (d ∉ t.dirs))

/-- Required files absent from the top-level listing:
`[f for f in required_files if f not in existing_files]`. -/
def missingFiles (s : Schema) (t : Tree) : List String :=
  s.required_files.filter (fun f => decide (f ∉ t.files))

/-- Errors the embedded handler bodies can raise. -/
inductive PyError where
  | zeroDivision
  | notExist (path : String)
deriving DecidableEq, Repr

/-- The message `str(e)` of an embedded error. -/
def errMessage : PyError → String
  | .zeroDivision => "division by zero"
  | .notExist path => "Project directory " ++ path ++ " does not exist"

/-- Python `int()` applied to a rational: truncation toward zero. -/
def pyInt (q : ℚ) : ℤ := if 0 ≤ q then ⌊q⌋ else ⌈q⌉

/-- Compliance-score computation of `validate_project` (the block from
`score_weights = ...` to `compliance_score = int(...)`).  Python evaluates
the directory component first and the file component second, so an empty
`required_dirs` or `required_files` raises `ZeroDivisionError`. -/
def complianceScore (w : ScoringWeights) (s : Schema) (t : Tree) : Except PyError ℤ :=
  if s.required_dirs.length = 0 then .error .zeroDivision
  else if s.required_files.length = 0 then .error .zeroDivision
  else
    let dirScore : ℚ :=
      max 0 ((((s.required_dirs.length : ℚ) - ((missingDirs s t).length : ℚ)) /
        (s.required_dirs.length : ℚ)) * w.directories)
    let fileScore : ℚ :=
      max 0 ((((s.required_files.length : ℚ) - ((missingFiles s t).length : ℚ)) /
        (s.required_files.length : ℚ)) * w.required_files)
    let contentScore : ℚ := if missingFiles s t = [] then w.content_quality else 0
    let gitScore : ℚ := if ".git" ∈ t.dirs then w.git_integration else 0
    .ok (pyInt (dirScore + fileScore + contentScore + gitScore))

/-- Result envelope returned by every public handler.  The `data` dict is
flattened into the optional fields the claims refer to; a key absent from
the Python dict is `none` / `[]` here. -/
structure Envelope where
  success : Bool
  message : String
  errors : List String
  complianceScoreData : Option ℤ := none
  projectTypeData : Option String := none
  createdDirectoriesData : List String := []
  removedDirectoriesData : List String := []
deriving DecidableEq, Repr

/-- Body of `validate_project` after the schema has been selected (the
code from the `missing_dirs` computation to the return, lines 360-446),
together with the `except` clause that turns a raised error into the
failure envelope. -/
def validateWithSchema (s : Schema) (t : Tree) : Envelope :=
  match complianceScore defaultWeights s t with
  | .error e =>
    { success := false
      message := "Validation failed: " ++ errMessage e
      errors := [errMessage e] }
  | .ok score =>
    { success := true
      message := "Validation completed"
      errors := []
      complianceScoreData := some score }

/-- The public `validate_project` handler.  The filesystem argument is
`none` when the requested root does not exist (the `ValidationError`
path). -/
def validate_project (root : String) (fs : Option Tree) : Envelope :=
  match fs with
  | none =>
    { success := false
      message := "Validation failed: " ++ errMessage (.notExist root)
      errors := [errMessage (.notExist root)] }
  | some t =>
    let e := validateWithSchema (detectedSchema t) t
    { e with projectTypeData := if e.success then some (detectedType t) else none }

/-- Directory names `.git`, `.claude`, `.claude-plugin` that
`restructure_project` excludes from removal. -/
def removalExclusions : List String := [".git", ".claude", ".claude-plugin"]

/-- Directories `restructure_project` removes when `remove_nonstandard`
is set: pre-existing top-level directories whose name is neither in
`required_dirs + optional_dirs` nor in the exclusion list. -/
def removedDirs (s : Schema) (t : Tree) : List String :=
  t.dirs.filter (fun d =>
    decide (d ∉ s.required_dirs ++ s.optional_dirs) && decide (d ∉ removalExclusions))

/-- First path segment of a relative path string: the top-level directory
`mkdir(parents=True)` materialises for a nested required path such as
`data/raw`. -/
def firstSegment (d : String) : String :=
  String.mk (d.data.takeWhile (fun c => c ≠ '/'))

/-- Top-level snapshot after `restructure_project` has created the missing
required directories (step 1) and, when requested, removed the
nonstandard pre-existing directories.  Creating a nested required path
adds its first segment to the top-level listing; `exist_ok=True` makes
the creation a plain union.  Removal deletes the directory path itself,
whether or not step 1 re-created part of it. -/
def afterRestructure (s : Schema) (t : Tree) (removeNonstandard : Bool) : Tree :=
  let created := (s.required_dirs.map firstSegment).filter (fun d => decide (d ∉ t.dirs))
  let removed := if removeNonstandard then removedDirs s t else []
  { dirs := (t.dirs ++ created).filter (fun d => decide (d ∉ removed))
    files := t.files
    subEntries := t.subEntries }

/-- Body of `restructure_project` once the target type string is fixed:
look the schema up in the registry (an unknown name raises `KeyError`,
caught by the handler's except clause), create the missing required
directories and remove the nonstandard ones.  File moves are a no-op in
this handler (`moved_files = []`). -/
def restructureWithTarget (t : Tree) (removeNonstandard : Bool) (target : String) : Envelope :=
  match projectTypes.lookup target with
  | none =>
    { success := false
      message := "Failed to restructure project: " ++ target
      errors := [target] }
  | some s =>
    { success := true
      message := "Project restructured successfully"
      errors := []
      projectTypeData := some target
      createdDirectoriesData :=
        (s.required_dirs.map firstSegment).filter (fun d => decide (d ∉ t.dirs))
      removedDirectoriesData := if removeNonstandard then removedDirs s t else [] }

/-- The public `restructure_project` handler of `handlers.py`.
`targetType` is the payload's `target_type`, auto-detection with
`"general"` fallback applying when it is absent; `fs` is `none` when the
root does not exist. -/
def restructure_project (root : String) (fs : Option Tree) (removeNonstandard : Bool)
    (targetType : Option String) : Envelope :=
  match fs with
  | none =>
    { success := false
      message := "Failed to restructure project: " ++ errMessage (.notExist root)
      errors := [errMessage (.notExist root)] }
  | some t =>
    restructureWithTarget t removeNonstandard
      (match targetType with
        | some ty => ty
        | none => detectedType t)

/-- The public `get_project_status` handler: reuses `validate_project`
for the compliance score, substituting 0 when validation failed. -/
def get_project_status (root : String) (fs : Option Tree) : Envelope :=
  match fs with
  | none =>
    { success := false
      message := "Failed to generate status report: " ++ errMessage (.notExist root)
      errors := [errMessage (.notExist root)] }
  | some t =>
    let v := validate_project root (some t)
    { success := true
      message := "Status report generated"
      errors := []
      complianceScoreData := some (if v.success then v.complianceScoreData.getD 0 else 0)
      projectTypeData := some (detectedType t) }

/-- Lowercase ASCII letter, the character class `[a-z]`. -/
def isLowerAlpha (c : Char) : Bool := 'a' ≤ c && c ≤ 'z'

/-- ASCII digit, the character class `[0-9]`. -/
def isDigitCh (c : Char) : Bool := '0' ≤ c && c ≤ '9'

/-- The character class `[a-z0-9-]` of the kebab-case pattern. -/
def isKebabMid (c : Char) : Bool := isLowerAlpha c || isDigitCh c || c = '-'

/-- The character class `[a-z0-9]` of the kebab-case pattern. -/
def isKebabEnd (c : Char) : Bool := isLowerAlpha c || isDigitCh c

/-- Matches `[a-z0-9-]*[a-z0-9]`: a nonempty tail whose last character is
in `[a-z0-9]` and whose earlier characters are in `[a-z0-9-]`. -/
def kebabTail : List Char → Bool
  | [] => false
  | [c] => isKebabEnd c
  | c :: c2 :: rest => isKebabMid c && kebabTail (c2 :: rest)

/-- Matches the full pattern body `[a-z][a-z0-9-]*[a-z0-9]`. -/
def kebabBody : List Char → Bool
  | [] => false
  | c :: rest => isLowerAlpha c && kebabTail rest

/-- `validate_project_name`: `re.match` anchors at the start, and the `$`
of the pattern also accepts a single trailing newline, so the name
matches when its characters match the body outright or when they are the
body followed by a newline.  The empty string is rejected up front. -/
def validate_project_name (name : String) : Bool :=
  kebabBody name.data ||
    (name.data.getLast? = some '\n' && kebabBody name.data.dropLast)

/-- Payload of `create_project`; an absent key is `none`. -/
structure CreatePayload where
  project_name : Option String := none
  project_type : Option String := none
  force : Bool := false
deriving DecidableEq, Repr

/-- Failure envelope built by the `except` clause of `create_project`. -/
def createFailure (msg : String) : Envelope :=
  { success := false
    message := "Failed to create project: " ++ msg
    errors := [msg] }

/-- The public `create_project` handler.  `targetExists` is whether
`root / project_name` already exists.  Filesystem writes, template
generation and the Git subprocess calls are out of scope; what is
embedded is the validation chain and the envelope. -/
def create_project (p : CreatePayload) (targetExists : Bool) : Envelope :=
  match p.project_name with
  | none => createFailure "project_name is required"
  | some name =>
    if name = "" then createFailure "project_name is required"
    else if ¬ validate_project_name name then
      createFailure ("Invalid project name " ++ name ++ ". Must be kebab-case.")
    else
      match p.project_type with
      | none => createFailure "project_type is required"
      | some ty =>
        if ty = "" then createFailure "project_type is required"
        else if (projectTypes.lookup ty).isNone then
          createFailure ("Unknown project type " ++ ty)
        else if targetExists ∧ ¬ p.force then
          createFailure ("Project directory already exists. Use force=True to overwrite.")
        else
          { success := true
            message := "Project " ++ name ++ " created successfully"
            errors := []
            projectTypeData := some ty }

/-- Hidden-entry test `item.name.startswith(".")` of the restructurer's
`_analyze_existing_structure`. -/
def startsWithDot (f : String) : Bool := f.data.head? = some '.'

/-- Suffix test embedding Python `str.endswith`. -/
def endsWithExt (s suffix : String) : Bool := suffix.data.isSuffixOf s.data

/-- Top-level files the restructurer considers for moving:
`_analyze_existing_structure` skips every entry whose name starts with a
dot. -/
def analysisFiles (t : Tree) : List String :=
  t.files.filter (fun f => !startsWithDot f)

/-- The required files hardcoded in the restructurer's skip list (`# Skip
if it is a required file`). -/
def restructurerRequiredFiles : List String :=
  ["README.md", ".gitignore", "project.yml", ".project-config.json"]

/-- Extension routing of `_perform_restructure`, first match wins:
`.py`/`.R` to `codes`, `.md` to `paper`, `.csv`/`.xlsx`/`.json` to
`data`, anything else stays in place. -/
def routeFile (f : String) : Option String :=
  if endsWithExt f ".py" || endsWithExt f ".R" then some "codes"
  else if endsWithExt f ".md" then some "paper"
  else if endsWithExt f ".csv" || endsWithExt f ".xlsx" || endsWithExt f ".json" then
    some "data"
  else none

/-- One planned relocation of a top-level file into a standard
directory. -/
structure FileMove where
  source : String
  destDir : String
deriving DecidableEq, Repr

/-- File moves performed by `_perform_restructure` of
`ProjectRestructurer`: route each analysed top-level file that is not a
required file; a move whose destination `target_dir / file_name` already
exists is skipped rather than overwriting. -/
def plannedMoves (t : Tree) : List FileMove :=
  (analysisFiles t).filterMap (fun f =>
    if f ∈ restructurerRequiredFiles then none
    else
      match routeFile f with
      | none => none
      | some dest => if (dest, f) ∈ t.subEntries then none else some ⟨f, dest⟩)

/-! Claim-side definitions: the score components exactly as the
specification words them, to be compared with the computation embedded
above. -/

/-- Spec formula `max(0, (|required_dirs| - |missing_dirs|) / |required_dirs|) * weight_dirs`
with the default weight 40. -/
def specDirComponent (s : Schema) (t : Tree) : ℚ :=
  max 0 (((s.required_dirs.length : ℚ) - ((missingDirs s t).length : ℚ)) /
    (s.required_dirs.length : ℚ)) * 40

/-- Spec formula `max(0, (|required_files| - |missing_files|) / |required_files|) * weight_files`
with the default weight 35. -/
def specFileComponent (s : Schema) (t : Tree) : ℚ :=
  max 0 (((s.required_files.length : ℚ) - ((missingFiles s t).length : ℚ)) /
    (s.required_files.length : ℚ)) * 35

/-- Spec formula `weight_content if missing_files is empty else 0` with
the default weight 15. -/
def specContentComponent (s : Schema) (t : Tree) : ℚ :=
  if missingFiles s t = [] then 15 else 0

/-- Spec formula `weight_git if a .git entry exists else 0` with the
default weight 10. -/
def specGitComponent (t : Tree) : ℚ :=
  if ".git" ∈ t.dirs then 10 else 0

/-! Concrete inputs used by witnesses and counterexamples. -/

/-- A directory containing exactly the `general` schema's required
directories and files plus a `.git` folder. -/
def tGeneral : Tree :=
  { dirs := ["claude-code", "data", "codes", "paper", "pre", ".git"]
    files := ["README.md", ".gitignore", "project.yml", ".project-config.json"] }

/-- Top-level snapshot of a directory containing exactly the
`data-analysis` schema's required directories (which are nested, so the
top level shows only their first segments) and files plus a `.git`
folder. -/
def tDataAnalysis : Tree :=
  { dirs := ["claude-code", "data", "codes", "reports", ".git"]
    files := ["README.md", ".gitignore", "project.yml", ".project-config.json"] }

/-- An empty project directory. -/
def tEmpty : Tree := { dirs := [], files := [] }

/-- A tree holding one nonstandard directory. -/
def tJunk : Tree := { dirs := ["junk"], files := [] }

/-- A tree holding one `__pycache__` directory. -/
def tPycache : Tree := { dirs := ["__pycache__"], files := [] }

/-- A tree with loose top-level files of various extensions, one of them
hidden, and a name collision inside `codes`. -/
def tLooseFiles : Tree :=
  { dirs := []
    files := ["script.py", "notes.txt", "draft.md", "table.csv", "dup.py", ".env.py"]
    subEntries := [("codes", "dup.py")] }

/-- A schema whose `required_dirs` list is empty. -/
def emptyDirsSchema : Schema :=
  { required_dirs := [], optional_dirs := [], required_files := ["README.md"] }

/-! Lemmas about the detection fold. -/

lemma detectLoop_le_snd (t : Tree) (l : List (String × Schema)) (b : Option String) (s : ℚ) :
    s ≤ (detectLoop t l b s).2 := by
  induction l generalizing b s with
  | nil => simp [detectLoop]
  | cons p rest ih =>
    rw [detectLoop]
    split_ifs with h
    · exact le_trans (le_of_lt h) (ih _ _)
    · exact ih _ _

lemma detectLoop_ratio_le (t : Tree) (l : List (String × Schema)) (b : Option String) (s : ℚ) :
    ∀ p ∈ l, matchRatio t p.2 ≤ (detectLoop t l b s).2 := by
  induction l generalizing b s with
  | nil => intro p hp; simp at hp
  | cons q rest ih =>
    intro p hp
    rw [detectLoop]
    rcases List.mem_cons.1 hp with rfl | hmem
    · split_ifs with h
      · exact detectLoop_le_snd t rest _ _
      · exact le_trans (le_of_not_lt h) (detectLoop_le_snd t rest _ _)
    · split_ifs with h
      · exact ih _ _ p hmem
      · exact ih _ _ p hmem

lemma detectLoop_cases (t : Tree) (l : List (String × Schema)) (b : Option String) (s : ℚ) :
    ((detectLoop t l b s).1 = b ∧ (detectLoop t l b s).2 = s) ∨
    ∃ l1 p l2, l = l1 ++ p :: l2 ∧ (detectLoop t l b s).1 = some p.1 ∧
      (detectLoop t l b s).2 = matchRatio t p.2 ∧ s < matchRatio t p.2 ∧
      ∀ q ∈ l1, matchRatio t q.2 < matchRatio t p.2 := by
  induction l generalizing b s with
  | nil => left; simp [detectLoop]
  | cons q rest ih =>
    rw [detectLoop]
    split_ifs with h
    · rcases ih (some q.1) (matchRatio t q.2) with ⟨h1, h2⟩ | ⟨l1, p, l2, hdec, h1, h2, h3, h4⟩
      · right
        exact ⟨[], q, rest, rfl, h1, h2, h2 ▸ h, by simp⟩
      · right
        refine ⟨q :: l1, p, l2, by rw [hdec, List.cons_append], h1, h2, lt_trans h h3, ?_⟩
        intro x hx
        rcases List.mem_cons.1 hx with rfl | hmem
        · exact h3
        · exact h4 x hmem
    · rcases ih b s with ⟨h1, h2⟩ | ⟨l1, p, l2, hdec, h1, h2, h3, h4⟩
      · left; exact ⟨h1, h2⟩
      · right
        refine ⟨q :: l1, p, l2, by rw [hdec, List.cons_append], h1, h2, h3, ?_⟩
        intro x hx
        rcases List.mem_cons.1 hx with rfl | hmem
        · exact lt_of_le_of_lt (le_of_not_lt h) h3
        · exact h4 x hmem

/-- If detection succeeds, the returned name heads an entry of the
registry whose ratio beats the threshold, is maximal, and strictly beats
every earlier entry. -/
lemma detect_eq_some (t : Tree) (nm : String) (h : detectProjectType t = some nm) :
    ∃ l1 s l2, projectTypes = l1 ++ (nm, s) :: l2 ∧ 3 / 10 < matchRatio t s ∧
      (∀ p ∈ projectTypes, matchRatio t p.2 ≤ matchRatio t s) ∧
      ∀ q ∈ l1, matchRatio t q.2 < matchRatio t s := by
  rw [detectProjectType] at h
  split_ifs at h with hth
  rcases detectLoop_cases t projectTypes none 0 with ⟨h1, _⟩ | ⟨l1, p, l2, hdec, h1, h2, _, h4⟩
  · rw [h1] at h; exact absurd h (by simp)
  · rw [h1] at h
    obtain rfl : p.1 = nm := Option.some.inj h
    refine ⟨l1, p.2, l2, by rw [hdec], h2 ▸ hth, ?_, h4⟩
    intro q hq
    have := detectLoop_ratio_le t projectTypes none 0 q hq
    rw [h2] at this
    exact this

/-- Detection returns `None` exactly when no registry schema has match
ratio above `0.3`. -/
lemma detect_eq_none_iff (t : Tree) :
    detectProjectType t = none ↔ ∀ p ∈ projectTypes, matchRatio t p.2 ≤ 3 / 10 := by
  constructor
  · intro h p hp
    by_contra hgt
    rw [detectProjectType] at h
    have hle := detectLoop_ratio_le t projectTypes none 0 p hp
    have hth : 3 / 10 < (detectLoop t projectTypes none 0).2 :=
      lt_of_lt_of_le (lt_of_not_le hgt) hle
    rw [if_pos hth] at h
    rcases detectLoop_cases t projectTypes none 0 with ⟨_, h2⟩ | ⟨l1, q, l2, _, h1, _, _, _⟩
    · rw [h2] at hth; norm_num at hth
    · rw [h1] at h; exact absurd h (by simp)
  · intro hall
    rw [detectProjectType]
    have hle : (detectLoop t projectTypes none 0).2 ≤ 3 / 10 := by
      rcases detectLoop_cases t projectTypes none 0 with ⟨_, h2⟩ | ⟨l1, q, l2, hdec, _, h2, _, _⟩
      · rw [h2]; norm_num
      · rw [h2]
        exact hall q (by rw [hdec]; exact List.mem_append_right _ (List.mem_cons_self _ _))
    rw [if_neg (not_lt.2 hle)]

/-- Any decomposition of the default registry around one entry is one of
the four concrete ones. -/
lemma registry_decomp (l1 : List (String × Schema)) (nm : String) (s : Schema)
    (l2 : List (String × Schema)) (h : projectTypes = l1 ++ (nm, s) :: l2) :
    (l1 = [] ∧ nm = "research-project" ∧ s = researchProject) ∨
    (l1 = [("research-project", researchProject)] ∧ nm = "data-analysis" ∧ s = dataAnalysis) ∨
    (l1 = [("research-project", researchProject), ("data-analysis", dataAnalysis)] ∧
      nm = "paper-writing" ∧ s = paperWriting) ∨
    (l1 = [("research-project", researchProject), ("data-analysis", dataAnalysis),
      ("paper-writing", paperWriting)] ∧ nm = "general" ∧ s = general) := by
  rcases l1 with _ | ⟨a, _ | ⟨b, _ | ⟨c, _ | ⟨d, l1⟩⟩⟩⟩ <;>
    simp_all [projectTypes]

/-! Concrete evaluations of the match ratios and of detection. -/

lemma ratio_tGeneral_research : matchRatio tGeneral researchProject = 1 / 6 := by
  rw [matchRatio, show matchCount tGeneral researchProject.required_dirs = 1 from by decide,
    show researchProject.required_dirs.length = 6 from by decide]
  norm_num

lemma ratio_tGeneral_data : matchRatio tGeneral dataAnalysis = 1 / 6 := by
  rw [matchRatio, show matchCount tGeneral dataAnalysis.required_dirs = 1 from by decide,
    show dataAnalysis.required_dirs.length = 6 from by decide]
  norm_num

lemma ratio_tGeneral_paper : matchRatio tGeneral paperWriting = 1 / 6 := by
  rw [matchRatio, show matchCount tGeneral paperWriting.required_dirs = 1 from by decide,
    show paperWriting.required_dirs.length = 6 from by decide]
  norm_num

lemma ratio_tGeneral_general : matchRatio tGeneral general = 1 := by
  rw [matchRatio, show matchCount tGeneral general.required_dirs = 5 from by decide,
    show general.required_dirs.length = 5 from by decide]
  norm_num

lemma ratio_tDA_research : matchRatio tDataAnalysis researchProject = 1 / 6 := by
  rw [matchRatio, show matchCount tDataAnalysis researchProject.required_dirs = 1 from by decide,
    show researchProject.required_dirs.length = 6 from by decide]
  norm_num

lemma ratio_tDA_data : matchRatio tDataAnalysis dataAnalysis = 1 / 6 := by
  rw [matchRatio, show matchCount tDataAnalysis dataAnalysis.required_dirs = 1 from by decide,
    show dataAnalysis.required_dirs.length = 6 from by decide]
  norm_num

lemma ratio_tDA_paper : matchRatio tDataAnalysis paperWriting = 1 / 6 := by
  rw [matchRatio, show matchCount tDataAnalysis paperWriting.required_dirs = 1 from by decide,
    show paperWriting.required_dirs.length = 6 from by decide]
  norm_num

lemma ratio_tDA_general : matchRatio tDataAnalysis general = 3 / 5 := by
  rw [matchRatio, show matchCount tDataAnalysis general.required_dirs = 3 from by decide,
    show general.required_dirs.length = 5 from by decide]
  norm_num

lemma ratio_tEmpty (s : Schema) : matchRatio tEmpty s = 0 := by
  rw [matchRatio]
  have : matchCount tEmpty s.required_dirs = 0 := by
    rw [matchCount, List.length_eq_zero, List.filter_eq_nil_iff]
    intro d _
    simp [tEmpty]
  rw [this]
  norm_num

lemma detect_tGeneral : detectProjectType tGeneral = some "general" := by
  simp only [detectProjectType, projectTypes, detectLoop, ratio_tGeneral_research,
    ratio_tGeneral_data, ratio_tGeneral_paper, ratio_tGeneral_general]
  norm_num

lemma detect_tDA : detectProjectType tDataAnalysis = some "general" := by
  simp only [detectProjectType, projectTypes, detectLoop, ratio_tDA_research,
    ratio_tDA_data, ratio_tDA_paper, ratio_tDA_general]
  norm_num

lemma detect_tEmpty : detectProjectType tEmpty = none := by
  simp only [detectProjectType, projectTypes, detectLoop, ratio_tEmpty]
  norm_num

/-- The schema selected by `validate_project` is always one of the four
default registry schemas. -/
lemma detectedSchema_cases (t : Tree) :
    detectedSchema t = researchProject ∨ detectedSchema t = dataAnalysis ∨
    detectedSchema t = paperWriting ∨ detectedSchema t = general := by
  rw [detectedSchema, detectedType]
  cases h : detectProjectType t with
  | none => right; right; right; rfl
  | some nm =>
    obtain ⟨l1, s, l2, hdec, _, _, _⟩ := detect_eq_some t nm h
    rcases registry_decomp l1 nm s l2 hdec with ⟨_, rfl, _⟩ | ⟨_, rfl, _⟩ | ⟨_, rfl, _⟩ |
      ⟨_, rfl, _⟩
    · left; rfl
    · right; left; rfl
    · right; right; left; rfl
    · right; right; right; rfl

/-- The detected schema's required lists are never empty, so the scoring
division never raises on the default registry. -/
lemma detectedSchema_lengths (t : Tree) :
    (detectedSchema t).required_dirs.length ≠ 0 ∧
    (detectedSchema t).required_files.length ≠ 0 := by
  rcases detectedSchema_cases t with h | h | h | h <;> rw [h] <;> exact ⟨by decide, by decide⟩

/-! The compliance score agrees with the specification formula. -/

lemma complianceScore_eq_spec (s : Schema) (t : Tree)
    (hd : s.required_dirs.length ≠ 0) (hf : s.required_files.length ≠ 0) :
    complianceScore defaultWeights s t =
      .ok ⌊specDirComponent s t + specFileComponent s t + specContentComponent s t +
        specGitComponent t⌋ := by
  simp only [complianceScore]
  rw [if_neg hd, if_neg hf]
  have h40 : (0 : ℚ) ≤ 40 := by norm_num
  have h35 : (0 : ℚ) ≤ 35 := by norm_num
  have hdir : specDirComponent s t =
      max 0 ((((s.required_dirs.length : ℚ) - ((missingDirs s t).length : ℚ)) /
        (s.required_dirs.length : ℚ)) * defaultWeights.directories) := by
    rw [specDirComponent, max_mul_of_nonneg _ _ h40, zero_mul, defaultWeights]
  have hfile : specFileComponent s t =
      max 0 ((((s.required_files.length : ℚ) - ((missingFiles s t).length : ℚ)) /
        (s.required_files.length : ℚ)) * defaultWeights.required_files) := by
    rw [specFileComponent, max_mul_of_nonneg _ _ h35, zero_mul, defaultWeights]
  have hcontent : specContentComponent s t =
      if missingFiles s t = [] then defaultWeights.content_quality else 0 := by
    rw [specContentComponent, defaultWeights]
  have hgit : specGitComponent t =
      if ".git" ∈ t.dirs then defaultWeights.git_integration else 0 := by
    rw [specGitComponent, defaultWeights]
  have hsum : (0 : ℚ) ≤ specDirComponent s t + specFileComponent s t +
      specContentComponent s t + specGitComponent t := by
    have h1 : (0 : ℚ) ≤ specDirComponent s t :=
      mul_nonneg (le_max_left 0 _) h40
    have h2 : (0 : ℚ) ≤ specFileComponent s t :=
      mul_nonneg (le_max_left 0 _) h35
    have h3 : (0 : ℚ) ≤ specContentComponent s t := by
      rw [specContentComponent]; split_ifs <;> norm_num
    have h4 : (0 : ℚ) ≤ specGitComponent t := by
      rw [specGitComponent]; split_ifs <;> norm_num
    linarith
  rw [← hdir, ← hfile, ← hcontent, ← hgit, pyInt, if_pos hsum]

lemma spec_sum_le_100 (s : Schema) (t : Tree)
    (hd : s.required_dirs.length ≠ 0) (hf : s.required_files.length ≠ 0) :
    specDirComponent s t + specFileComponent s t + specContentComponent s t +
      specGitComponent t ≤ 100 := by
  have hdL : (0 : ℚ) < (s.required_dirs.length : ℚ) := by
    exact_mod_cast Nat.pos_of_ne_zero hd
  have hfL : (0 : ℚ) < (s.required_files.length : ℚ) := by
    exact_mod_cast Nat.pos_of_ne_zero hf
  have h1 : specDirComponent s t ≤ 40 := by
    rw [specDirComponent]
    have hx : (((s.required_dirs.length : ℚ) - ((missingDirs s t).length : ℚ)) /
        (s.required_dirs.length : ℚ)) ≤ 1 := by
      rw [div_le_one hdL]
      have : (0 : ℚ) ≤ ((missingDirs s t).length : ℚ) := by positivity
      linarith
    have hm : max 0 (((s.required_dirs.length : ℚ) - ((missingDirs s t).length : ℚ)) /
        (s.required_dirs.length : ℚ)) ≤ 1 := max_le (by norm_num) hx
    calc max 0 (((s.required_dirs.length : ℚ) - ((missingDirs s t).length : ℚ)) /
          (s.required_dirs.length : ℚ)) * 40 ≤ 1 * 40 :=
        mul_le_mul_of_nonneg_right hm (by norm_num)
      _ = 40 := one_mul 40
  have h2 : specFileComponent s t ≤ 35 := by
    rw [specFileComponent]
    have hx : (((s.required_files.length : ℚ) - ((missingFiles s t).length : ℚ)) /
        (s.required_files.length : ℚ)) ≤ 1 := by
      rw [div_le_one hfL]
      have : (0 : ℚ) ≤ ((missingFiles s t).length : ℚ) := by positivity
      linarith
    have hm : max 0 (((s.required_files.length : ℚ) - ((missingFiles s t).length : ℚ)) /
        (s.required_files.length : ℚ)) ≤ 1 := max_le (by norm_num) hx
    calc max 0 (((s.required_files.length : ℚ) - ((missingFiles s t).length : ℚ)) /
          (s.required_files.length : ℚ)) * 35 ≤ 1 * 35 :=
        mul_le_mul_of_nonneg_right hm (by norm_num)
      _ = 35 := one_mul 35
  have h3 : specContentComponent s t ≤ 15 := by
    rw [specContentComponent]; split_ifs <;> norm_num
  have h4 : specGitComponent t ≤ 10 := by
    rw [specGitComponent]; split_ifs <;> norm_num
  linarith

lemma spec_sum_nonneg (s : Schema) (t : Tree) :
    (0 : ℚ) ≤ specDirComponent s t + specFileComponent s t + specContentComponent s t +
      specGitComponent t := by
  have h1 : (0 : ℚ) ≤ specDirComponent s t :=
    mul_nonneg (le_max_left 0 _) (by norm_num)
  have h2 : (0 : ℚ) ≤ specFileComponent s t :=
    mul_nonneg (le_max_left 0 _) (by norm_num)
  have h3 : (0 : ℚ) ≤ specContentComponent s t := by
    rw [specContentComponent]; split_ifs <;> norm_num
  have h4 : (0 : ℚ) ≤ specGitComponent t := by
    rw [specGitComponent]; split_ifs <;> norm_num
  linarith

/-- Fields of `validate_project` on an existing tree, in terms of
`validateWithSchema`. -/
lemma validate_project_some (root : String) (t : Tree) :
    validate_project root (some t) =
      { validateWithSchema (detectedSchema t) t with
        projectTypeData :=
          if (validateWithSchema (detectedSchema t) t).success then some (detectedType t)
          else none } := rfl

/-- On any schema whose required lists are nonempty, `validateWithSchema`
succeeds with the spec-formula score. -/
lemma validateWithSchema_ok (s : Schema) (t : Tree)
    (hd : s.required_dirs.length ≠ 0) (hf : s.required_files.length ≠ 0) :
    validateWithSchema s t =
      { success := true
        message := "Validation completed"
        errors := []
        complianceScoreData := some ⌊specDirComponent s t + specFileComponent s t +
          specContentComponent s t + specGitComponent t⌋ } := by
  rw [validateWithSchema, complianceScore_eq_spec s t hd hf]

lemma detectedSchema_tGeneral : detectedSchema tGeneral = general := by
  rw [detectedSchema, detectedType, detect_tGeneral]; rfl

lemma detectedSchema_tDA : detectedSchema tDataAnalysis = general := by
  rw [detectedSchema, detectedType, detect_tDA]; rfl

lemma specSum_general_tGeneral :
    specDirComponent general tGeneral + specFileComponent general tGeneral +
      specContentComponent general tGeneral + specGitComponent tGeneral = 100 := by
  rw [specDirComponent, specFileComponent, specContentComponent, specGitComponent,
    show (missingDirs general tGeneral).length = 0 from by decide,
    show (missingFiles general tGeneral).length = 0 from by decide,
    show general.required_dirs.length = 5 from by decide,
    show general.required_files.length = 4 from by decide,
    if_pos (show missingFiles general tGeneral = [] from by decide),
    if_pos (show ".git" ∈ tGeneral.dirs from by decide)]
  norm_num [max_def]

lemma specSum_general_tDA :
    specDirComponent general tDataAnalysis + specFileComponent general tDataAnalysis +
      specContentComponent general tDataAnalysis + specGitComponent tDataAnalysis = 84 := by
  rw [specDirComponent, specFileComponent, specContentComponent, specGitComponent,
    show (missingDirs general tDataAnalysis).length = 2 from by decide,
    show (missingFiles general tDataAnalysis).length = 0 from by decide,
    show general.required_dirs.length = 5 from by decide,
    show general.required_files.length = 4 from by decide,
    if_pos (show missingFiles general tDataAnalysis = [] from by decide),
    if_pos (show ".git" ∈ tDataAnalysis.dirs from by decide)]
  norm_num [max_def]

/-! Claim theorems. -/

/-- C1: for every project tree, the compliance score `validate_project`
returns equals the floor of `dir_component + file_component +
content_component + git_component`, with the components given by the
specification formula (weights 40/35/15/10) over the detected schema; the
score is an integer in `[0, 100]` and validation succeeds. -/
theorem validate_score_matches_spec_formula (root : String) (t : Tree) :
    (validate_project root (some t)).success = true ∧
    (validate_project root (some t)).complianceScoreData =
      some ⌊specDirComponent (detectedSchema t) t + specFileComponent (detectedSchema t) t +
        specContentComponent (detectedSchema t) t + specGitComponent t⌋ ∧
    (0 : ℤ) ≤ ⌊specDirComponent (detectedSchema t) t + specFileComponent (detectedSchema t) t +
        specContentComponent (detectedSchema t) t + specGitComponent t⌋ ∧
    ⌊specDirComponent (detectedSchema t) t + specFileComponent (detectedSchema t) t +
        specContentComponent (detectedSchema t) t + specGitComponent t⌋ ≤ 100 := by
  obtain ⟨hd, hf⟩ := detectedSchema_lengths t
  rw [validate_project_some, validateWithSchema_ok _ _ hd hf]
  refine ⟨rfl, rfl, Int.floor_nonneg.mpr (spec_sum_nonneg _ _), ?_⟩
  calc ⌊specDirComponent (detectedSchema t) t + specFileComponent (detectedSchema t) t +
        specContentComponent (detectedSchema t) t + specGitComponent t⌋
      ≤ ⌊(100 : ℚ)⌋ := Int.floor_le_floor (spec_sum_le_100 _ _ hd hf)
    _ = 100 := by
        rw [show ((100 : ℚ)) = ((100 : ℤ) : ℚ) from by norm_num, Int.floor_intCast]

/-- C5 counterexample: a directory whose top level shows exactly the
`data-analysis` schema's required structure (first segments of its nested
required directories), its required files and `.git` is detected as
`general` and scores 84, not 100. -/
theorem validate_exact_data_analysis_tree_scores_84 :
    (validate_project "proj" (some tDataAnalysis)).complianceScoreData = some 84 ∧
    (validate_project "proj" (some tDataAnalysis)).complianceScoreData ≠ some 100 := by
  have h : (validate_project "proj" (some tDataAnalysis)).complianceScoreData = some 84 := by
    rw [validate_project_some, detectedSchema_tDA,
      validateWithSchema_ok general tDataAnalysis (by decide) (by decide), specSum_general_tDA,
      show ((84 : ℚ)) = ((84 : ℤ) : ℚ) from by norm_num, Int.floor_intCast]
  exact ⟨h, by rw [h]; simp⟩

/-- C5 (amended): for the `general` schema — whose required directories
are all top-level names, so the tree containing exactly them is detected
as `general` itself — validating a directory with exactly the required
directories and files plus `.git` yields a compliance score of exactly
100.  (For schemas with nested required paths, detection falls back to
`general` and the score can be lower, see the counterexample.) -/
theorem validate_exact_general_tree_scores_100 (root : String) :
    (validate_project root (some tGeneral)).success = true ∧
    (validate_project root (some tGeneral)).complianceScoreData = some 100 ∧
    (validate_project root (some tGeneral)).projectTypeData = some "general" := by
  rw [validate_project_some, detectedSchema_tGeneral,
    validateWithSchema_ok general tGeneral (by decide) (by decide), specSum_general_tGeneral,
    show ((100 : ℚ)) = ((100 : ℤ) : ℚ) from by norm_num, Int.floor_intCast]
  refine ⟨rfl, rfl, ?_⟩
  rw [show detectedType tGeneral = "general" from by rw [detectedType, detect_tGeneral]; rfl]
  rfl

/-- C2: detection returns the registry entry with the strictly highest
match ratio — an entry returned beats every earlier entry strictly (first
wins on ties) and is at least as high as every entry; it never returns a
type whose ratio is `≤ 0.3`; it returns `None` exactly when every ratio
is `≤ 0.3`; and the callers substitute `"general"` for `None`. -/
theorem detect_returns_best_match_above_threshold :
    (∀ t nm, detectProjectType t = some nm →
      ∃ s, (nm, s) ∈ projectTypes ∧ 3 / 10 < matchRatio t s ∧
        ∀ p ∈ projectTypes, matchRatio t p.2 ≤ matchRatio t s) ∧
    (∀ t, detectProjectType t = some "data-analysis" →
      matchRatio t researchProject < matchRatio t dataAnalysis) ∧
    (∀ t, detectProjectType t = some "paper-writing" →
      matchRatio t researchProject < matchRatio t paperWriting ∧
      matchRatio t dataAnalysis < matchRatio t paperWriting) ∧
    (∀ t, detectProjectType t = some "general" →
      matchRatio t researchProject < matchRatio t general ∧
      matchRatio t dataAnalysis < matchRatio t general ∧
      matchRatio t paperWriting < matchRatio t general) ∧
    (∀ t, detectProjectType t = none ↔ ∀ p ∈ projectTypes, matchRatio t p.2 ≤ 3 / 10) ∧
    (∀ t, detectProjectType t = none → detectedType t = "general") := by
  refine ⟨?_, ?_, ?_, ?_, detect_eq_none_iff, ?_⟩
  · intro t nm h
    obtain ⟨l1, s, l2, hdec, hth, hmax, _⟩ := detect_eq_some t nm h
    refine ⟨s, ?_, hth, hmax⟩
    rw [hdec]
    exact List.mem_append_right _ (List.mem_cons_self _ _)
  · intro t h
    obtain ⟨l1, s, l2, hdec, _, _, hfirst⟩ := detect_eq_some t _ h
    rcases registry_decomp l1 _ s l2 hdec with ⟨_, hnm, _⟩ | ⟨hl1, _, rfl⟩ | ⟨_, hnm, _⟩ |
      ⟨_, hnm, _⟩
    · exact absurd hnm (by decide)
    · rw [hl1] at hfirst
      exact hfirst ("research-project", researchProject) (by simp)
    · exact absurd hnm (by decide)
    · exact absurd hnm (by decide)
  · intro t h
    obtain ⟨l1, s, l2, hdec, _, _, hfirst⟩ := detect_eq_some t _ h
    rcases registry_decomp l1 _ s l2 hdec with ⟨_, hnm, _⟩ | ⟨_, hnm, _⟩ | ⟨hl1, _, rfl⟩ |
      ⟨_, hnm, _⟩
    · exact absurd hnm (by decide)
    · exact absurd hnm (by decide)
    · rw [hl1] at hfirst
      exact ⟨hfirst ("research-project", researchProject) (by simp),
        hfirst ("data-analysis", dataAnalysis) (by simp)⟩
    · exact absurd hnm (by decide)
  · intro t h
    obtain ⟨l1, s, l2, hdec, _, _, hfirst⟩ := detect_eq_some t _ h
    rcases registry_decomp l1 _ s l2 hdec with ⟨_, hnm, _⟩ | ⟨_, hnm, _⟩ | ⟨_, hnm, _⟩ |
      ⟨hl1, _, rfl⟩
    · exact absurd hnm (by decide)
    · exact absurd hnm (by decide)
    · exact absurd hnm (by decide)
    · rw [hl1] at hfirst
      exact ⟨hfirst ("research-project", researchProject) (by simp),
        hfirst ("data-analysis", dataAnalysis) (by simp),
        hfirst ("paper-writing", paperWriting) (by simp)⟩
  · intro t h
    rw [detectedType, h]
    rfl

/-- C2 witness: on the exact `general` tree detection returns
`"general"` and its ratio strictly beats the three earlier entries; on an
empty tree detection returns `None` and the caller fallback yields
`"general"`. -/
theorem detect_best_match_witness :
    (matchRatio tGeneral researchProject < matchRatio tGeneral general ∧
      matchRatio tGeneral dataAnalysis < matchRatio tGeneral general ∧
      matchRatio tGeneral paperWriting < matchRatio tGeneral general) ∧
    detectedType tEmpty = "general" :=
  ⟨detect_returns_best_match_above_threshold.2.2.2.1 tGeneral detect_tGeneral,
    detect_returns_best_match_above_threshold.2.2.2.2.2 tEmpty detect_tEmpty⟩

lemma length_filter_le_one (p : String → Bool) (a : String) (l : List String)
    (h : ∀ x ∈ l, p x = false) : (List.filter p (a :: l)).length ≤ 1 := by
  have hnil : List.filter p l = [] :=
    List.filter_eq_nil_iff.mpr (by intro x hx; simp [h x hx])
  rw [List.filter_cons]
  split_ifs <;> simp [hnil]

lemma matchRatio_research_le (t : Tree) (hns : ∀ d ∈ t.dirs, '/' ∉ d.data) :
    matchRatio t researchProject ≤ 1 / 6 := by
  have hc : matchCount t researchProject.required_dirs ≤ 1 := by
    rw [matchCount, show researchProject.required_dirs = "claude-code" ::
      ["data/raw", "data/processed", "codes/scripts", "paper/sections", "pre/literature"]
      from rfl]
    apply length_filter_le_one
    intro x hx
    have hsl : '/' ∈ x.data := by
      simp only [List.mem_cons, List.not_mem_nil, or_false] at hx
      rcases hx with rfl | rfl | rfl | rfl | rfl <;> decide
    exact decide_eq_false (fun hmem => (hns x hmem) hsl)
  rw [matchRatio, show researchProject.required_dirs.length = 6 from by decide]
  have : (matchCount t researchProject.required_dirs : ℚ) ≤ 1 := by exact_mod_cast hc
  gcongr

lemma matchRatio_data_le (t : Tree) (hns : ∀ d ∈ t.dirs, '/' ∉ d.data) :
    matchRatio t dataAnalysis ≤ 1 / 6 := by
  have hc : matchCount t dataAnalysis.required_dirs ≤ 1 := by
    rw [matchCount, show dataAnalysis.required_dirs = "claude-code" ::
      ["data/raw", "data/processed", "codes/etl", "codes/analysis", "reports/drafts"]
      from rfl]
    apply length_filter_le_one
    intro x hx
    have hsl : '/' ∈ x.data := by
      simp only [List.mem_cons, List.not_mem_nil, or_false] at hx
      rcases hx with rfl | rfl | rfl | rfl | rfl <;> decide
    exact decide_eq_false (fun hmem => (hns x hmem) hsl)
  rw [matchRatio, show dataAnalysis.required_dirs.length = 6 from by decide]
  have : (matchCount t dataAnalysis.required_dirs : ℚ) ≤ 1 := by exact_mod_cast hc
  gcongr

lemma matchRatio_paper_le (t : Tree) (hns : ∀ d ∈ t.dirs, '/' ∉ d.data) :
    matchRatio t paperWriting ≤ 1 / 6 := by
  have hc : matchCount t paperWriting.required_dirs ≤ 1 := by
    rw [matchCount, show paperWriting.required_dirs = "claude-code" ::
      ["data/figures", "data/tables", "codes/analysis", "paper/chapters", "pre/outlines"]
      from rfl]
    apply length_filter_le_one
    intro x hx
    have hsl : '/' ∈ x.data := by
      simp only [List.mem_cons, List.not_mem_nil, or_false] at hx
      rcases hx with rfl | rfl | rfl | rfl | rfl <;> decide
    exact decide_eq_false (fun hmem => (hns x hmem) hsl)
  rw [matchRatio, show paperWriting.required_dirs.length = 6 from by decide]
  have : (matchCount t paperWriting.required_dirs : ℚ) ≤ 1 := by exact_mod_cast hc
  gcongr

/-- C9: on any real directory listing (top-level names cannot contain a
slash), detection under the built-in defaults returns `"general"` or
`None` — never one of the three nested-schema types, whose match ratios
are capped at `1/6 ≤ 0.3` because their nested required paths can never
equal a top-level name. -/
theorem default_detection_general_or_none (t : Tree)
    (hns : ∀ d ∈ t.dirs, '/' ∉ d.data) :
    (detectProjectType t = none ∨ detectProjectType t = some "general") ∧
    matchRatio t researchProject ≤ 1 / 6 ∧ matchRatio t dataAnalysis ≤ 1 / 6 ∧
    matchRatio t paperWriting ≤ 1 / 6 := by
  refine ⟨?_, matchRatio_research_le t hns, matchRatio_data_le t hns,
    matchRatio_paper_le t hns⟩
  cases h : detectProjectType t with
  | none => left; rfl
  | some nm =>
    right
    obtain ⟨l1, s, l2, hdec, hth, _, _⟩ := detect_eq_some t nm h
    rcases registry_decomp l1 nm s l2 hdec with ⟨_, rfl, rfl⟩ | ⟨_, rfl, rfl⟩ |
      ⟨_, rfl, rfl⟩ | ⟨_, rfl, rfl⟩
    · exact absurd (lt_of_lt_of_le hth (matchRatio_research_le t hns)) (by norm_num)
    · exact absurd (lt_of_lt_of_le hth (matchRatio_data_le t hns)) (by norm_num)
    · exact absurd (lt_of_lt_of_le hth (matchRatio_paper_le t hns)) (by norm_num)
    · rfl

/-- C9 witness: the exact `general` tree has slash-free top-level names;
detection yields `"general"` and the three nested schemas stay capped at
`1/6`. -/
theorem default_detection_witness :
    (detectProjectType tGeneral = none ∨ detectProjectType tGeneral = some "general") ∧
    matchRatio tGeneral researchProject ≤ 1 / 6 ∧
    matchRatio tGeneral dataAnalysis ≤ 1 / 6 ∧
    matchRatio tGeneral paperWriting ≤ 1 / 6 :=
  default_detection_general_or_none tGeneral (by decide)

lemma removedDirs_ne_excluded (s : Schema) (t : Tree) (d : String)
    (hd : d ∈ removalExclusions) : d ∉ removedDirs s t := by
  intro hmem
  rw [removedDirs, List.mem_filter] at hmem
  have h2 := hmem.2
  simp only [Bool.and_eq_true, decide_eq_true_eq] at h2
  exact h2.2 hd

lemma restructureWithTarget_removed_excluded (t : Tree) (rm : Bool) (target : String)
    (d : String) (hd : d ∈ removalExclusions) :
    d ∉ (restructureWithTarget t rm target).removedDirectoriesData := by
  rcases hlk : projectTypes.lookup target with _ | s
  · simp [restructureWithTarget, hlk]
  · cases rm with
    | false => simp [restructureWithTarget, hlk]
    | true =>
      simp only [restructureWithTarget, hlk]
      simpa using removedDirs_ne_excluded s t d hd

lemma restructure_removed_excluded (root : String) (fs : Option Tree) (rm : Bool)
    (ty : Option String) (d : String) (hd : d ∈ removalExclusions) :
    d ∉ (restructure_project root fs rm ty).removedDirectoriesData := by
  cases fs with
  | none => simp [restructure_project]
  | some t => exact restructureWithTarget_removed_excluded t rm _ d hd

/-- C3 (amended): restructuring never removes a directory named `.git`,
`.claude` or `.claude-plugin` — the exclusion list hardcoded in
`restructure_project` — for every tree, flag and target type.
`__pycache__` is not on that list and is removed when nonstandard (see
the counterexample); it is only excluded from the `extra_dirs`
classification of `validate_project`. -/
theorem restructure_never_removes_git_claude (root : String) (fs : Option Tree)
    (rm : Bool) (ty : Option String) :
    ".git" ∉ (restructure_project root fs rm ty).removedDirectoriesData ∧
    ".claude" ∉ (restructure_project root fs rm ty).removedDirectoriesData ∧
    ".claude-plugin" ∉ (restructure_project root fs rm ty).removedDirectoriesData :=
  ⟨restructure_removed_excluded root fs rm ty ".git" (by decide),
    restructure_removed_excluded root fs rm ty ".claude" (by decide),
    restructure_removed_excluded root fs rm ty ".claude-plugin" (by decide)⟩

/-- C3 counterexample: with `remove_nonstandard=true`, a pre-existing
`__pycache__` directory appears in the removed directories, contradicting
the claim that all four reserved names are protected. -/
theorem restructure_removes_pycache :
    "__pycache__" ∈ (restructure_project "proj" (some tPycache) true
      (some "general")).removedDirectoriesData := by decide

lemma afterRestructure_false_dirs (s : Schema) (t : Tree) :
    (afterRestructure s t false).dirs =
      t.dirs ++ (s.required_dirs.map firstSegment).filter (fun d => decide (d ∉ t.dirs)) := by
  rw [afterRestructure]
  simp

/-- C4 (amended): for a schema whose required directories are all plain
top-level names (each equals its own first path segment), applying the
restructure plan with `remove_nonstandard=false` yields a tree whose
analysis has no missing required directory.  For schemas with nested
required paths the claim fails (see the counterexample): creation
materialises only the first segment at top level, while the analyzer
compares full nested path strings against top-level names. -/
theorem roundtrip_flat_schema_missing_dirs_empty (s : Schema) (t : Tree)
    (hflat : ∀ d ∈ s.required_dirs, firstSegment d = d) :
    missingDirs s (afterRestructure s t false) = [] := by
  rw [missingDirs, List.filter_eq_nil_iff]
  intro d hd
  simp only [decide_eq_true_eq, not_not]
  rw [afterRestructure_false_dirs]
  by_cases hmem : d ∈ t.dirs
  · exact List.mem_append_left _ hmem
  · refine List.mem_append_right _ ?_
    rw [List.mem_filter]
    exact ⟨List.mem_map.mpr ⟨d, hd, hflat d hd⟩, decide_eq_true hmem⟩

/-- C4 witness: the flat `general` schema on a tree with one junk
directory round-trips to an analysis with no missing directories. -/
theorem roundtrip_flat_witness :
    missingDirs general (afterRestructure general tJunk false) = [] :=
  roundtrip_flat_schema_missing_dirs_empty general tJunk (by decide)

/-- C4 counterexample: restructuring an empty tree toward
`research-project` and re-analysing it against the same schema leaves
`missing_dirs` nonempty — the nested required paths are still reported
missing, so the round-trip property fails as stated. -/
theorem roundtrip_fails_for_nested_schema :
    missingDirs researchProject (afterRestructure researchProject tEmpty false) ≠ [] := by
  decide

/-- C6 (amended): during restructuring, every *non-hidden* existing
top-level file not among the required files is routed by extension with
first match winning — `.py`/`.R` to `codes`, `.md` to `paper`,
`.csv`/`.xlsx`/`.json` to `data`, unmapped extensions stay in place — and
a move whose destination already holds an entry of the same name is
skipped.  Files whose names start with a dot are excluded from the
analysis and never moved, even when their extension is mapped (see the
counterexample). -/
theorem restructure_file_routing (t : Tree) (f dest : String) :
    ((⟨f, dest⟩ : FileMove) ∈ plannedMoves t ↔
      f ∈ t.files ∧ startsWithDot f = false ∧ f ∉ restructurerRequiredFiles ∧
      routeFile f = some dest ∧ (dest, f) ∉ t.subEntries) ∧
    ((endsWithExt f ".py" = true ∨ endsWithExt f ".R" = true) → routeFile f = some "codes") ∧
    (endsWithExt f ".py" = false → endsWithExt f ".R" = false → endsWithExt f ".md" = true →
      routeFile f = some "paper") ∧
    (endsWithExt f ".py" = false → endsWithExt f ".R" = false → endsWithExt f ".md" = false →
      (endsWithExt f ".csv" = true ∨ endsWithExt f ".xlsx" = true ∨
        endsWithExt f ".json" = true) →
      routeFile f = some "data") ∧
    (endsWithExt f ".py" = false → endsWithExt f ".R" = false → endsWithExt f ".md" = false →
      endsWithExt f ".csv" = false → endsWithExt f ".xlsx" = false →
      endsWithExt f ".json" = false → routeFile f = none) := by
  refine ⟨?_, ?_, ?_, ?_, ?_⟩
  · rw [plannedMoves, List.mem_filterMap]
    constructor
    · rintro ⟨a, ha, hg⟩
      by_cases h1 : a ∈ restructurerRequiredFiles
      · rw [if_pos h1] at hg; exact absurd hg (by simp)
      · rw [if_neg h1] at hg
        rcases hr : routeFile a with _ | d2
        · rw [hr] at hg; exact absurd hg (by simp)
        · rw [hr] at hg
          dsimp only at hg
          by_cases h2 : (d2, a) ∈ t.subEntries
          · rw [if_pos h2] at hg; exact absurd hg (by simp)
          · rw [if_neg h2] at hg
            have hinj := Option.some.inj hg
            obtain rfl : a = f := congrArg FileMove.source hinj
            obtain rfl : d2 = dest := congrArg FileMove.destDir hinj
            have hmem := List.mem_filter.mp ha
            refine ⟨hmem.1, ?_, h1, hr, h2⟩
            simpa using hmem.2
    · rintro ⟨hf, hdot, hreq, hroute, hsub⟩
      refine ⟨f, ?_, ?_⟩
      · rw [analysisFiles, List.mem_filter]
        exact ⟨hf, by simp [hdot]⟩
      · rw [if_neg hreq, hroute]
        dsimp only
        rw [if_neg hsub]
  · intro h
    rw [routeFile, if_pos (by rcases h with h | h <;> simp [h])]
  · intro hpy hR hmd
    rw [routeFile, if_neg (by simp [hpy, hR]), if_pos hmd]
  · intro hpy hR hmd hdata
    rw [routeFile, if_neg (by simp [hpy, hR]), if_neg (by simp [hmd]),
      if_pos (by rcases hdata with h | h | h <;> simp [h])]
  · intro hpy hR hmd hcsv hxlsx hjson
    rw [routeFile, if_neg (by simp [hpy, hR]), if_neg (by simp [hmd]),
      if_neg (by simp [hcsv, hxlsx, hjson])]

/-- C6 witness: on the loose-file tree, `script.py` is planned to move
into `codes` and the unmapped `notes.txt` is routed nowhere. -/
theorem restructure_file_routing_witness :
    (⟨"script.py", "codes"⟩ : FileMove) ∈ plannedMoves tLooseFiles ∧
    routeFile "notes.txt" = none :=
  ⟨((restructure_file_routing tLooseFiles "script.py" "codes").1).mpr (by decide),
    (restructure_file_routing tLooseFiles "notes.txt" "codes").2.2.2.2
      (by decide) (by decide) (by decide) (by decide) (by decide) (by decide)⟩

/-- C6 counterexample: the hidden file `.env.py` is a top-level file with
a mapped extension that is not a required file, yet the restructurer
plans no move for it — `_analyze_existing_structure` skips names starting
with a dot, so the claim as stated (every top-level file is routed) is
false. -/
theorem hidden_py_file_not_moved :
    ".env.py" ∈ tLooseFiles.files ∧ endsWithExt ".env.py" ".py" = true ∧
    ".env.py" ∉ restructurerRequiredFiles ∧
    ∀ m ∈ plannedMoves tLooseFiles, m.source ≠ ".env.py" := by decide

/-- C7 (amended): if a schema's `required_dirs` or `required_files` list
is empty, the scorer does not score the component as 0 — it raises
`ZeroDivisionError`, which the handler catches, so validation returns a
failure envelope carrying the error and no compliance score. -/
theorem empty_required_lists_error_envelope (w : ScoringWeights) (s : Schema) (t : Tree)
    (h : s.required_dirs = [] ∨ s.required_files = []) :
    complianceScore w s t = .error .zeroDivision ∧
    (validateWithSchema s t).success = false ∧
    (validateWithSchema s t).complianceScoreData = none ∧
    (validateWithSchema s t).errors = [errMessage .zeroDivision] := by
  have hz : ∀ w2 : ScoringWeights, complianceScore w2 s t = .error .zeroDivision := by
    intro w2
    rcases h with h | h
    · rw [complianceScore, if_pos (by rw [h]; rfl)]
    · by_cases hd : s.required_dirs.length = 0
      · rw [complianceScore, if_pos hd]
      · rw [complianceScore, if_neg hd, if_pos (by rw [h]; rfl)]
  refine ⟨hz w, ?_, ?_, ?_⟩ <;> rw [validateWithSchema, hz defaultWeights]

/-- C7 witness: the concrete empty-`required_dirs` schema produces the
division-by-zero failure envelope. -/
theorem empty_required_witness :
    complianceScore defaultWeights emptyDirsSchema tEmpty = .error .zeroDivision ∧
    (validateWithSchema emptyDirsSchema tEmpty).success = false ∧
    (validateWithSchema emptyDirsSchema tEmpty).complianceScoreData = none ∧
    (validateWithSchema emptyDirsSchema tEmpty).errors = [errMessage .zeroDivision] :=
  empty_required_lists_error_envelope defaultWeights emptyDirsSchema tEmpty (Or.inl rfl)

/-- C7 counterexample: with an empty `required_dirs` list, validation
produces no compliance score at all — `success` is `false` — instead of
scoring the directory component as 0 as the claim states. -/
theorem empty_required_dirs_no_score :
    (validateWithSchema emptyDirsSchema tEmpty).complianceScoreData = none ∧
    (validateWithSchema emptyDirsSchema tEmpty).success = false := by decide

lemma restructureWithTarget_envelope (t : Tree) (rm : Bool) (target : String) :
    ((restructureWithTarget t rm target).success = true ∧
      (restructureWithTarget t rm target).errors = []) ∨
    ∃ e, (restructureWithTarget t rm target).success = false ∧
      (restructureWithTarget t rm target).errors = [e] ∧
      (restructureWithTarget t rm target).message = "Failed to restructure project: " ++ e := by
  rcases hlk : projectTypes.lookup target with _ | s <;> simp only [restructureWithTarget, hlk]
  · exact Or.inr ⟨target, by simp, by simp, by simp⟩
  · exact Or.inl ⟨by simp, by simp⟩

/-- C8: every public operation totalises into a structured envelope: a
successful call carries an empty error list, and every failing call
carries `success = false`, exactly one error string, and a human-readable
message formed from it; in particular a missing target path makes
`validate_project`, `restructure_project` and `get_project_status` return
the failure envelope with the not-exist error rather than raising. -/
theorem handlers_return_failure_envelope :
    (∀ (p : CreatePayload) (ex : Bool),
      ((create_project p ex).success = true ∧ (create_project p ex).errors = []) ∨
      ∃ e, (create_project p ex).success = false ∧ (create_project p ex).errors = [e] ∧
        (create_project p ex).message = "Failed to create project: " ++ e) ∧
    (∀ (root : String) (fs : Option Tree) (rm : Bool) (ty : Option String),
      ((restructure_project root fs rm ty).success = true ∧
        (restructure_project root fs rm ty).errors = []) ∨
      ∃ e, (restructure_project root fs rm ty).success = false ∧
        (restructure_project root fs rm ty).errors = [e] ∧
        (restructure_project root fs rm ty).message = "Failed to restructure project: " ++ e) ∧
    (∀ (root : String) (fs : Option Tree),
      ((validate_project root fs).success = true ∧ (validate_project root fs).errors = []) ∨
      ∃ e, (validate_project root fs).success = false ∧
        (validate_project root fs).errors = [e] ∧
        (validate_project root fs).message = "Validation failed: " ++ e) ∧
    (∀ (root : String) (fs : Option Tree),
      ((get_project_status root fs).success = true ∧
        (get_project_status root fs).errors = []) ∨
      ∃ e, (get_project_status root fs).success = false ∧
        (get_project_status root fs).errors = [e] ∧
        (get_project_status root fs).message =
          "Failed to generate status report: " ++ e) ∧
    (∀ root : String, (validate_project root none).success = false ∧
      (validate_project root none).errors = [errMessage (.notExist root)]) ∧
    (∀ (root : String) (rm : Bool) (ty : Option String),
      (restructure_project root none rm ty).success = false ∧
      (restructure_project root none rm ty).errors = [errMessage (.notExist root)]) ∧
    (∀ root : String, (get_project_status root none).success = false ∧
      (get_project_status root none).errors = [errMessage (.notExist root)]) := by
  refine ⟨?_, ?_, ?_, ?_, fun root => ⟨rfl, rfl⟩, fun root rm ty => ⟨rfl, rfl⟩,
    fun root => ⟨rfl, rfl⟩⟩
  · intro p ex
    rcases p with ⟨pn, pt, force⟩
    cases pn with
    | none => exact Or.inr ⟨_, rfl, rfl, rfl⟩
    | some name =>
      cases pt with
      | none =>
        simp only [create_project]
        split_ifs <;> exact Or.inr ⟨_, rfl, rfl, rfl⟩
      | some ty =>
        simp only [create_project]
        split_ifs <;> first
          | exact Or.inr ⟨_, rfl, rfl, rfl⟩
          | exact Or.inl ⟨rfl, rfl⟩
  · intro root fs rm ty
    cases fs with
    | none => exact Or.inr ⟨_, rfl, rfl, rfl⟩
    | some t => exact restructureWithTarget_envelope t rm _
  · intro root fs
    cases fs with
    | none => exact Or.inr ⟨_, rfl, rfl, rfl⟩
    | some t =>
      rw [validate_project_some, validateWithSchema]
      rcases hc : complianceScore defaultWeights (detectedSchema t) t with e | score <;>
        simp only [hc]
      · exact Or.inr ⟨errMessage e, by simp, by simp, by simp⟩
      · exact Or.inl ⟨by simp, by simp⟩
  · intro root fs
    cases fs with
    | none => exact Or.inr ⟨_, rfl, rfl, rfl⟩
    | some t => exact Or.inl ⟨rfl, rfl⟩

lemma not_upper_of_lower (c : Char) (h : isLowerAlpha c = true) :
    ¬ ('A' ≤ c ∧ c ≤ 'Z') := by
  rw [isLowerAlpha, Bool.and_eq_true, decide_eq_true_eq, decide_eq_true_eq] at h
  rintro ⟨_, hZ⟩
  exact absurd (le_trans h.1 hZ) (by decide)

lemma not_upper_of_end (c : Char) (h : isKebabEnd c = true) :
    ¬ ('A' ≤ c ∧ c ≤ 'Z') := by
  rw [isKebabEnd, Bool.or_eq_true] at h
  rcases h with h | h
  · exact not_upper_of_lower c h
  · rw [isDigitCh, Bool.and_eq_true, decide_eq_true_eq, decide_eq_true_eq] at h
    rintro ⟨hA, _⟩
    exact absurd (le_trans hA h.2) (by decide)

lemma not_upper_of_mid (c : Char) (h : isKebabMid c = true) :
    ¬ ('A' ≤ c ∧ c ≤ 'Z') := by
  rw [isKebabMid, Bool.or_eq_true] at h
  rcases h with h | h
  · exact not_upper_of_end c (by rw [isKebabEnd, h])
  · rw [decide_eq_true_eq] at h
    subst h
    rintro ⟨hA, _⟩
    exact absurd hA (by decide)

lemma kebabTail_no_upper : ∀ l : List Char, kebabTail l = true →
    ∀ c ∈ l, ¬ ('A' ≤ c ∧ c ≤ 'Z') := by
  intro l
  induction l with
  | nil => intro h; simp [kebabTail] at h
  | cons a rest ih =>
    intro h c hc
    cases rest with
    | nil =>
      simp only [kebabTail] at h
      obtain rfl : c = a := by simpa using hc
      exact not_upper_of_end c h
    | cons b rest2 =>
      rw [kebabTail, Bool.and_eq_true] at h
      rcases List.mem_cons.1 hc with rfl | hc2
      · exact not_upper_of_mid c h.1
      · exact ih h.2 c hc2

lemma kebabBody_no_upper : ∀ l : List Char, kebabBody l = true →
    ∀ c ∈ l, ¬ ('A' ≤ c ∧ c ≤ 'Z') := by
  intro l
  cases l with
  | nil => intro h; simp [kebabBody] at h
  | cons a rest =>
    intro h c hc
    rw [kebabBody, Bool.and_eq_true] at h
    rcases List.mem_cons.1 hc with rfl | hc2
    · exact not_upper_of_lower c h.1
    · exact kebabTail_no_upper rest h.2 c hc2

/-- The kebab-case pattern needs a first and a distinct last character,
so no length-1 name can match, with or without a trailing newline. -/
lemma validate_name_len_one (name : String) (h : name.length = 1) :
    validate_project_name name = false := by
  obtain ⟨l⟩ := name
  obtain ⟨c, rfl⟩ : ∃ c, l = [c] := List.length_eq_one.mp h
  rw [validate_project_name]
  simp [kebabBody, kebabTail, List.dropLast]

lemma validate_name_upper (name : String)
    (h : ∃ c ∈ name.data, 'A' ≤ c ∧ c ≤ 'Z') :
    validate_project_name name = false := by
  obtain ⟨c, hc, hup⟩ := h
  cases hv : validate_project_name name with
  | false => rfl
  | true =>
    exfalso
    rw [validate_project_name, Bool.or_eq_true] at hv
    rcases hv with hb | hb
    · exact kebabBody_no_upper name.data hb c hc hup
    · rw [Bool.and_eq_true] at hb
      obtain ⟨hgl, hb2⟩ := hb
      rw [decide_eq_true_eq] at hgl
      have hne : name.data ≠ [] := by
        intro h0; rw [h0] at hgl; exact absurd hgl (by simp)
      have hlast : name.data.getLast hne = '\n' := by
        have hgl2 := List.getLast?_eq_getLast name.data hne
        rw [hgl2] at hgl
        exact Option.some.inj hgl
      have hdecomp := List.dropLast_append_getLast hne
      rw [← hdecomp] at hc
      rcases List.mem_append.1 hc with hc1 | hc2
      · exact kebabBody_no_upper _ hb2 c hc1 hup
      · rw [hlast] at hc2
        obtain rfl : c = '\n' := by simpa using hc2
        exact absurd hup.1 (by decide)

/-- C10: the kebab-case validator rejects every name of length 1 and
every name containing an uppercase ASCII letter, and `create_project`
with a single-character project name returns a failure envelope. -/
theorem single_char_or_uppercase_name_rejected :
    (∀ name : String, name.length = 1 → validate_project_name name = false) ∧
    (∀ name : String, (∃ c ∈ name.data, 'A' ≤ c ∧ c ≤ 'Z') →
      validate_project_name name = false) ∧
    (∀ (p : CreatePayload) (ex : Bool) (name : String), p.project_name = some name →
      name.length = 1 → (create_project p ex).success = false) := by
  refine ⟨validate_name_len_one, validate_name_upper, ?_⟩
  intro p ex name hpn hlen
  have hinv := validate_name_len_one name hlen
  rcases p with ⟨pn, pt, force⟩
  obtain rfl : pn = some name := hpn
  have hne : name ≠ "" := by
    intro h0
    rw [h0] at hlen
    exact absurd hlen (by decide)
  simp only [create_project]
  rw [if_neg hne, if_pos (show ¬ validate_project_name name = true by rw [hinv]; simp)]
  rfl

/-- C10 witness: `"a"` (length 1) and `"aB"` (uppercase) are rejected,
and creating a project named `"x"` fails. -/
theorem name_rejected_witness :
    validate_project_name "a" = false ∧ validate_project_name "aB" = false ∧
    (create_project { project_name := some "x", project_type := some "general" }
      false).success = false :=
  ⟨single_char_or_uppercase_name_rejected.1 "a" (by decide),
    single_char_or_uppercase_name_rejected.2.1 "aB" (by decide),
    single_char_or_uppercase_name_rejected.2.2
      { project_name := some "x", project_type := some "general" } false "x" rfl (by decide)⟩

end ProjectManagement
